import Mathlib

/-!
# Verification of the dungeon_guardian planner core

Shallow embedding of `src/dungeon_guardian.py` (the GOAP planner, the goal
selector, and the execution engine), faithful to the Python source:

* `WorldState` keeps the source's dataclass field names, including the
  misspelled field `trease_threat_level` (the rest of the program refers to
  the key/attribute `treasure_threat_level`).
* The planner works on `asdict(state)` string-keyed dictionaries; this is
  modelled by `stateGet`, which returns `none` exactly for keys that name no
  dataclass field (in particular for `"treasure_threat_level"`).
* Python's `random.randint(0, 15)` draws are modelled by an explicit oracle
  `o : Nat -> Nat`; a draw at position `idx` is `o idx % 16`, together with a
  running index threaded through every effect application.
* `heapq` is transcribed from CPython (`heappush`/`heappop` with
  `_siftdown`/`_siftup`), with the element comparison made fallible: Python
  tuple comparison raises `TypeError` when it has to order two `WorldState`
  values (the dataclass defines no `__lt__`), or two different `ActionType`
  enum members.
* The unbounded `while open_list` loop is modelled with explicit fuel; a run
  that is still going when the fuel ends is reported as `.outOfFuel`.

Normalisations (surface slips that prevent the module from loading at all
and that no behavioural property depends on): the unresolvable
`from typing import ... optional`, the lowercase `false`/`true` dataclass
defaults, the enum member spelled `ATTACK_ENEMEY` at its definition but used
as `ATTACK_ENEMY` everywhere, and the `Action` dataclass's `action_type`
being a class attribute rather than a field.  All are taken at their evident
intent so that the functions the claims are about can be given a semantics.
-/

namespace DungeonGuardian

/-- A Python value as it occurs in the world-state dictionary: the
`WorldState` fields are ints, strings and booleans. -/
inductive PyVal where
  | int  (n : Int)
  | str  (s : String)
  | bool (b : Bool)
deriving DecidableEq, Repr

/-- The `WorldState` dataclass.  Field names are exactly the source's,
including the misspelled `trease_threat_level` (source line 30). -/
structure WorldState where
  health : Int
  stamina : Int
  potion_count : Int
  trease_threat_level : String
  enemy_nearby : Bool
  is_in_safe_zone : Bool
  has_potion : Bool
  backup_available : Bool
deriving DecidableEq, Repr

/-- `asdict(state)[key]`, as an optional lookup: `some` exactly on the eight
dataclass field names.  Note `"treasure_threat_level"` is not among them. -/
def stateGet (s : WorldState) (k : String) : Option PyVal :=
  if k = "health" then some (.int s.health)
  else if k = "stamina" then some (.int s.stamina)
  else if k = "potion_count" then some (.int s.potion_count)
  else if k = "trease_threat_level" then some (.str s.trease_threat_level)
  else if k = "enemy_nearby" then some (.bool s.enemy_nearby)
  else if k = "is_in_safe_zone" then some (.bool s.is_in_safe_zone)
  else if k = "has_potion" then some (.bool s.has_potion)
  else if k = "backup_available" then some (.bool s.backup_available)
  else none

/-- `setattr(state, key, value)` for the keys actually reached in
`_apply_action` (which only calls it for keys present in `asdict`).  Every
effect write in the catalog is type-correct, so the typed update below is
exact on every reachable call; a mistyped write would leave the state
unchanged here (unreachable for the catalog). -/
def setAttr (s : WorldState) (k : String) (v : PyVal) : WorldState :=
  if k = "health" then match v with | .int n => { s with health := n } | _ => s
  else if k = "stamina" then match v with | .int n => { s with stamina := n } | _ => s
  else if k = "potion_count" then match v with | .int n => { s with potion_count := n } | _ => s
  else if k = "trease_threat_level" then
    match v with | .str t => { s with trease_threat_level := t } | _ => s
  else if k = "enemy_nearby" then match v with | .bool b => { s with enemy_nearby := b } | _ => s
  else if k = "is_in_safe_zone" then
    match v with | .bool b => { s with is_in_safe_zone := b } | _ => s
  else if k = "has_potion" then match v with | .bool b => { s with has_potion := b } | _ => s
  else if k = "backup_available" then
    match v with | .bool b => { s with backup_available := b } | _ => s
  else s

/-- The `ActionType` enum (normalising the member spelled `ATTACK_ENEMEY` at
its definition but referred to as `ATTACK_ENEMY` everywhere it is used). -/
inductive ActionType where
  | healSelf
  | attackEnemy
  | retreat
  | defendTreasure
  | callBackup
  | searchForPotion
deriving DecidableEq, Repr

/-- The `GoalType` enum. -/
inductive GoalType where
  | survive
  | eliminateThreat
  | protectTreasure
  | prepareForBattle
deriving DecidableEq, Repr

/-- A precondition or goal-condition value: either a literal compared with
`!=`, or a callable evaluated on the field's current value. -/
inductive Cond where
  | lit (v : PyVal)
  | pred (p : PyVal → Bool)

/-- An effect value: a literal, a pure callable of the pre-effect value, or
the one callable that also draws `random.randint(0, 15)` (AttackEnemy's
health effect). -/
inductive Eff where
  | lit (v : PyVal)
  | func (f : PyVal → PyVal)
  | randFunc (f : PyVal → Int → PyVal)

/-- The `Action` record: (action_type, preconditions, effects, cost).  The
string-keyed dicts are kept as association lists in insertion order. -/
structure Action where
  action_type : ActionType
  preconditions : List (String × Cond)
  effects : List (String × Eff)
  cost : Int

/-- HealSelf (source lines 273-278). -/
def heal_self_action : Action :=
  { action_type := .healSelf
    preconditions := [("has_potion", .lit (.bool true))]
    effects :=
      [("health", .func fun v => match v with | .int h => .int (min 100 (h + 40)) | w => w),
       ("has_potion", .lit (.bool false)),
       ("potion_count", .func fun v => match v with | .int p => .int (max 0 (p - 1)) | w => w)]
    cost := 1 }

/-- AttackEnemy (source lines 279-284); the health effect draws
`random.randint(0, 15)` each time it is evaluated. -/
def attack_enemy_action : Action :=
  { action_type := .attackEnemy
    preconditions :=
      [("enemy_nearby", .lit (.bool true)),
       ("stamina", .pred fun v => match v with | .int n => decide (5 ≤ n) | _ => false)]
    effects :=
      [("enemy_nearby", .lit (.bool false)),
       ("stamina", .func fun v => match v with | .int n => .int (n - 5) | w => w),
       ("health", .randFunc fun v d => match v with | .int h => .int (h - d) | w => w)]
    cost := 2 }

/-- Retreat (source lines 285-290). -/
def retreat_action : Action :=
  { action_type := .retreat
    preconditions := [("is_in_safe_zone", .lit (.bool false))]
    effects :=
      [("is_in_safe_zone", .lit (.bool true)),
       ("enemy_nearby", .lit (.bool false)),
       ("stamina", .func fun v => match v with | .int n => .int (n - 2) | w => w)]
    cost := 1 }

/-- DefendTreasure (source lines 291-296).  Both its precondition and its
first effect are keyed by `"treasure_threat_level"`, which names no
`WorldState` field. -/
def defend_treasure_action : Action :=
  { action_type := .defendTreasure
    preconditions :=
      [("treasure_threat_level",
        .pred fun v => match v with | .str t => decide (t = "medium" ∨ t = "high") | _ => false)]
    effects :=
      [("treasure_threat_level", .lit (.str "low")),
       ("stamina", .func fun v => match v with | .int n => .int (n - 3) | w => w)]
    cost := 2 }

/-- CallBackup (source lines 297-302); its `"treasure_threat_level"` effect
is keyed by a name absent from `WorldState`. -/
def call_backup_action : Action :=
  { action_type := .callBackup
    preconditions := [("backup_available", .lit (.bool true))]
    effects :=
      [("enemy_nearby", .lit (.bool false)),
       ("backup_available", .lit (.bool false)),
       ("treasure_threat_level", .lit (.str "low"))]
    cost := 3 }

/-- SearchForPotion (source lines 303-308). -/
def search_for_potion_action : Action :=
  { action_type := .searchForPotion
    preconditions :=
      [("potion_count", .pred fun v => match v with | .int p => decide (p < 3) | _ => false)]
    effects :=
      [("has_potion", .lit (.bool true)),
       ("potion_count", .func fun v => match v with | .int p => .int (p + 1) | w => w),
       ("stamina", .func fun v => match v with | .int n => .int (n - 1) | w => w)]
    cost := 1 }

/-- `GOAPPlanner._define_actions` (source lines 270-309), in source order. -/
def planner_actions : List Action :=
  [heal_self_action, attack_enemy_action, retreat_action,
   defend_treasure_action, call_backup_action, search_for_potion_action]

/-- `GOAPPlanner._can_execute_action` (source lines 341-356): keys absent
from `asdict(state)` make the check fail; literals are compared with `!=`,
callables are evaluated. -/
def can_execute_action (s : WorldState) (a : Action) : Bool :=
  a.preconditions.all fun kc =>
    match stateGet s kc.1 with
    | none => false
    | some v =>
      match kc.2 with
      | .lit w => v == w
      | .pred p => p v

/-- The value of one `random.randint(0, 15)` call, position `idx` of the
draw oracle `o`. -/
def draw (o : Nat → Nat) (idx : Nat) : Int :=
  ((o idx % 16 : Nat) : Int)

/-- One step of the effect loop in `GOAPPlanner._apply_action`: effects are
read from the pre-effect snapshot `asdict(new_state)` of `s` (taken once,
before the loop) and written with `setattr`; keys absent from the snapshot
are skipped; a `randFunc` effect consumes one damage draw. -/
def applyEffectStep (s : WorldState) (o : Nat → Nat) (acc : WorldState × Nat)
    (ke : String × Eff) : WorldState × Nat :=
  match stateGet s ke.1 with
  | none => acc
  | some v =>
    match ke.2 with
    | .lit w => (setAttr acc.1 ke.1 w, acc.2)
    | .func f => (setAttr acc.1 ke.1 (f v), acc.2)
    | .randFunc f => (setAttr acc.1 ke.1 (f v (draw o acc.2)), acc.2 + 1)

/-- `GOAPPlanner._apply_action` (source lines 358-371).  Returns the new
state and the advanced draw index. -/
def apply_action (s : WorldState) (a : Action) (o : Nat → Nat) (idx : Nat) :
    WorldState × Nat :=
  a.effects.foldl (applyEffectStep s o) (s, idx)

/-- `GOAPPlanner._goal_satisfied` (source lines 373-388): same shape as the
precondition check; keys absent from `asdict(state)` make it fail. -/
def goal_satisfied (s : WorldState) (goal : List (String × Cond)) : Bool :=
  goal.all fun kc =>
    match stateGet s kc.1 with
    | none => false
    | some v =>
      match kc.2 with
      | .lit w => v == w
      | .pred p => p v

/-- `GOAPPlanner._heuristic` (source lines 390-404): number of goal
conditions present in the state dict and unsatisfied (absent keys are not
counted). -/
def heuristic (s : WorldState) (goal : List (String × Cond)) : Int :=
  goal.foldl
    (fun score kc =>
      match stateGet s kc.1 with
      | none => score
      | some v =>
        match kc.2 with
        | .lit w => if v == w then score else score + 1
        | .pred p => if p v then score else score + 1)
    0

/-- A frontier entry, the Python tuple `(f_score, g_score, state, actions)`
pushed in `GOAPPlanner.plan` (source line 314 and 337). -/
structure Entry where
  f : Int
  g : Int
  state : WorldState
  actions : List ActionType
deriving DecidableEq, Repr

/-- Python `<` on two lists of `ActionType`: elementwise; at the first
unequal pair the enum comparison raises `TypeError` (enums define no
ordering); a strict prefix is smaller. -/
def pyListLt : List ActionType → List ActionType → Except Unit Bool
  | [], [] => .ok false
  | [], _ :: _ => .ok true
  | _ :: _, [] => .ok false
  | x :: xs, y :: ys => if x = y then pyListLt xs ys else .error ()

/-- Python `<` on two frontier tuples: lexicographic; once `f` and `g` both
tie, comparing the `WorldState` components raises `TypeError` (the dataclass
defines no `__lt__`) unless they are equal, in which case the action lists
are compared. -/
def entryLt (a b : Entry) : Except Unit Bool :=
  if a.f ≠ b.f then .ok (decide (a.f < b.f))
  else if a.g ≠ b.g then .ok (decide (a.g < b.g))
  else if a.state ≠ b.state then .error ()
  else pyListLt a.actions b.actions

/-- `heap[i]` (always called in range; the default is never read). -/
def hget (heap : List Entry) (i : Nat) : Entry :=
  heap.getD i ⟨0, 0, ⟨0, 0, 0, "low", false, false, false, false⟩, []⟩

/-- CPython `heapq._siftdown(heap, startpos, pos)`: bubble `newitem` up while
it compares below its parent; each comparison can raise `TypeError`.  The
loop variant is `pos` (each iteration moves to the strictly smaller parent
position), made explicit as the structural `fuel` argument; every caller
passes `fuel ≥ pos`, so the `fuel = 0` base case coincides with the loop's
own exit (`pos = 0 ≤ startpos`) and the semantics match the source. -/
def siftdownLoop (startpos : Nat) :
    Nat → List Entry → Nat → Entry → Except Unit (List Entry)
  | 0, heap, pos, newitem => .ok (heap.set pos newitem)
  | fuel + 1, heap, pos, newitem =>
    if startpos < pos then
      match entryLt newitem (hget heap ((pos - 1) / 2)) with
      | .error e => .error e
      | .ok true =>
        siftdownLoop startpos fuel (heap.set pos (hget heap ((pos - 1) / 2)))
          ((pos - 1) / 2) newitem
      | .ok false => .ok (heap.set pos newitem)
    else .ok (heap.set pos newitem)

/-- CPython `heapq.heappush(heap, item)`. -/
def heappush (heap : List Entry) (item : Entry) : Except Unit (List Entry) :=
  siftdownLoop 0 heap.length (heap ++ [item]) heap.length item

/-- The while-loop of CPython `heapq._siftup`: move the smaller child up
until reaching a leaf, returning the heap so far and the final position.
The loop variant `endpos - pos` shrinks by at least one per iteration
(`childpos > pos`), so `fuel ≥ endpos` makes the `fuel = 0` base case
unreachable before the loop's own exit. -/
def siftupLoop (endpos : Nat) :
    Nat → List Entry → Nat → Except Unit (List Entry × Nat)
  | 0, heap, pos => .ok (heap, pos)
  | fuel + 1, heap, pos =>
    if 2 * pos + 1 < endpos then
      if 2 * pos + 2 < endpos then
        match entryLt (hget heap (2 * pos + 1)) (hget heap (2 * pos + 2)) with
        | .error e => .error e
        | .ok true =>
          siftupLoop endpos fuel (heap.set pos (hget heap (2 * pos + 1))) (2 * pos + 1)
        | .ok false =>
          siftupLoop endpos fuel (heap.set pos (hget heap (2 * pos + 2))) (2 * pos + 2)
      else siftupLoop endpos fuel (heap.set pos (hget heap (2 * pos + 1))) (2 * pos + 1)
    else .ok (heap, pos)

/-- CPython `heapq._siftup(heap, pos)`: bubble the hole to a leaf, place
`newitem` there, then sift it back down toward `pos`. -/
def siftup (heap : List Entry) (pos : Nat) : Except Unit (List Entry) :=
  match siftupLoop heap.length heap.length heap pos with
  | .error e => .error e
  | .ok (h1, pos2) => siftdownLoop pos h1.length h1 pos2 (hget heap pos)

/-- CPython `heapq.heappop(heap)`; never called on an empty heap (the
source's loop guard is `while open_list`), modelled as `TypeError` there. -/
def heappop (heap : List Entry) : Except Unit (Entry × List Entry) :=
  match heap.getLast? with
  | none => .error ()
  | some lastelt =>
    if heap.dropLast.isEmpty then .ok (lastelt, [])
    else
      match siftup (heap.dropLast.set 0 lastelt) 0 with
      | .error e => .error e
      | .ok h2 => .ok (hget heap.dropLast 0, h2)

/-- Result of a `plan` run: a returned action list, a `TypeError` escaping
from a heap comparison, or fuel exhaustion (the source loop is unbounded;
`.outOfFuel` marks a run still going after the given number of iterations). -/
inductive PlanOutcome where
  | ok (actions : List ActionType)
  | typeError
  | outOfFuel
deriving DecidableEq, Repr

/-- The expansion of one popped node over the action list (source lines
330-337): for each action whose preconditions hold, apply the effects (each
AttackEnemy application makes a fresh damage draw, advancing `idx`), and
push `(newF, newG, newState, actions + [type])`. -/
def expandActions : List Action → WorldState → List ActionType → Int →
    List (String × Cond) → (Nat → Nat) → Nat → List Entry →
    Except Unit (List Entry × Nat)
  | [], _, _, _, _, _, idx, heap => .ok (heap, idx)
  | a :: rest, s, acts, gScore, goal, o, idx, heap =>
    if can_execute_action s a then
      match heappush heap
          ⟨gScore + a.cost + heuristic (apply_action s a o idx).1 goal,
           gScore + a.cost, (apply_action s a o idx).1, acts ++ [a.action_type]⟩ with
      | .error e => .error e
      | .ok heap2 =>
        expandActions rest s acts gScore goal o (apply_action s a o idx).2 heap2
    else expandActions rest s acts gScore goal o idx heap

/-- The `while open_list` loop of `GOAPPlanner.plan` (source lines 317-339):
pop, skip if the state key is closed, close it, return the action list when
the goal is satisfied, otherwise expand.  `closed` holds the states whose
serialized keys are in `closed_set` (the JSON key is injective on states, so
the set of keys is modelled as a list of states). -/
def planLoop (goal : List (String × Cond)) (o : Nat → Nat) :
    Nat → List Entry → List WorldState → Nat → PlanOutcome
  | 0, _, _, _ => .outOfFuel
  | fuel + 1, heap, closed, idx =>
    if heap.isEmpty then .ok []
    else
      match heappop heap with
      | .error _ => .typeError
      | .ok (e, heap1) =>
        if e.state ∈ closed then planLoop goal o fuel heap1 closed idx
        else if goal_satisfied e.state goal then .ok e.actions
        else
          match expandActions planner_actions e.state e.actions e.g goal o idx heap1 with
          | .error _ => .typeError
          | .ok (heap2, idx2) => planLoop goal o fuel heap2 (e.state :: closed) idx2

/-- `GOAPPlanner.plan(start_state, goal_conditions)` (source lines 311-339),
with an explicit draw oracle and fuel. -/
def plan (fuel : Nat) (start : WorldState) (goal : List (String × Cond))
    (o : Nat → Nat) : PlanOutcome :=
  planLoop goal o fuel [⟨0, 0, start, []⟩] [] 0

/-- `plan` never returns within the given fuel, however large: the source's
loop runs forever on this input. -/
def planDiverges (start : WorldState) (goal : List (String × Cond))
    (o : Nat → Nat) : Prop :=
  ∀ fuel, plan fuel start goal o = .outOfFuel

/-- `DungeonGuardian._goal_to_conditions` (source lines 596-615). -/
def goal_to_conditions : GoalType → List (String × Cond)
  | .survive =>
      [("health", .pred fun v => match v with | .int h => decide (50 ≤ h) | _ => false),
       ("is_in_safe_zone", .lit (.bool true))]
  | .eliminateThreat =>
      [("enemy_nearby", .lit (.bool false)),
       ("treasure_threat_level", .lit (.str "low"))]
  | .protectTreasure =>
      [("treasure_threat_level", .lit (.str "low"))]
  | .prepareForBattle =>
      [("stamina", .pred fun v => match v with | .int n => decide (15 ≤ n) | _ => false),
       ("has_potion", .lit (.bool true))]

/-- A Python exception escaping one of the embedded functions. -/
inductive PyError where
  | attributeError
deriving DecidableEq, Repr

/-- The attribute read `world_state.treasure_threat_level`: the dataclass
field is spelled `trease_threat_level`, and no code path ever sets a
`treasure_threat_level` attribute before reading it, so every such read
raises `AttributeError`. -/
def treasure_threat_level_attr (_ : WorldState) : Except PyError String :=
  .error .attributeError

/-- `CognitiveEngine.generate_goal` (source lines 156-175; the second,
effective definition of the twice-defined class), goal component only — the
narration string is external.  The preceding `_analyze_situation` call reads
only correctly named fields and cannot fail. -/
def generate_goal (s : WorldState) : Except PyError GoalType :=
  if s.health ≤ 30 then .ok .survive
  else
    match treasure_threat_level_attr s with
    | .error e => .error e
    | .ok t =>
      if t = "high" ∧ s.enemy_nearby then .ok .eliminateThreat
      else if t = "medium" ∨ t = "high" then .ok .protectTreasure
      else .ok .prepareForBattle

/-- `SimulationEngine.execute_action` (source lines 418-484), with the
`random.random() < self.failure_chance` roll supplied as `failRoll` and the
combat-damage `random.randint(0, 15)` supplied as `dmg % 16`.  Returns the
`(success, new_state)` pair (the narration strings are dropped).  The
DefendTreasure branch reads `world_state.treasure_threat_level` and raises
`AttributeError`; the CallBackup branch's `new_state.treasure_threat_level =
'low'` sets a fresh attribute that no later read observes, so the
`trease_threat_level` field is unchanged there. -/
def execute_action (a : ActionType) (s : WorldState) (failRoll : Bool)
    (dmg : Nat) : Except PyError (Bool × WorldState) :=
  if failRoll then .ok (false, s)
  else
    match a with
    | .healSelf =>
      if s.has_potion then
        .ok (true, { s with health := min 100 (s.health + 40), has_potion := false,
                            potion_count := max 0 (s.potion_count - 1) })
      else .ok (false, s)
    | .attackEnemy =>
      if s.enemy_nearby ∧ 5 ≤ s.stamina then
        .ok (true, { s with enemy_nearby := false, stamina := s.stamina - 5,
                            health := max 0 (s.health - ((dmg % 16 : Nat) : Int)) })
      else .ok (false, s)
    | .retreat =>
      if ¬s.is_in_safe_zone then
        .ok (true, { s with is_in_safe_zone := true, enemy_nearby := false,
                            stamina := max 0 (s.stamina - 2) })
      else .ok (false, s)
    | .defendTreasure =>
      match treasure_threat_level_attr s with
      | .error e => .error e
      | .ok t =>
        if t = "medium" ∨ t = "high" then
          .ok (true, { s with stamina := max 0 (s.stamina - 3) })
        else .ok (false, s)
    | .callBackup =>
      if s.backup_available then
        .ok (true, { s with enemy_nearby := false, backup_available := false })
      else .ok (false, s)
    | .searchForPotion =>
      if s.potion_count < 3 then
        .ok (true, { s with has_potion := true, potion_count := s.potion_count + 1,
                            stamina := max 0 (s.stamina - 1) })
      else .ok (false, s)

/-! ## Replaying a returned plan

`plan` returns bare `ActionType`s; replaying them means looking each one up
in the catalog (each type occurs exactly once in `_define_actions`) and
applying `_apply_action` in sequence, drawing combat damage as it goes. -/

/-- The unique catalog entry of each action type. -/
def catalogAction : ActionType → Action
  | .healSelf => heal_self_action
  | .attackEnemy => attack_enemy_action
  | .retreat => retreat_action
  | .defendTreasure => defend_treasure_action
  | .callBackup => call_backup_action
  | .searchForPotion => search_for_potion_action

/-- Sequentially apply a returned action list to a state via
`_apply_action`, threading the damage-draw index. -/
def applyPlan (s : WorldState) (acts : List ActionType) (o : Nat → Nat)
    (idx : Nat) : WorldState × Nat :=
  acts.foldl (fun acc t => apply_action acc.1 (catalogAction t) o acc.2) (s, idx)

/-- Number of damage draws one action's effect application makes. -/
def actionDraws : ActionType → Nat
  | .attackEnemy => 1
  | _ => 0

/-- Number of damage draws replaying a whole action list makes. -/
def planDraws (acts : List ActionType) : Nat :=
  (acts.map actionDraws).sum

/-- `s2` is the result of replaying `acts` from `start` for some sequence of
combat-damage draws. -/
def reachesVia (start : WorldState) (acts : List ActionType) (s2 : WorldState) :
    Prop :=
  ∃ o, (applyPlan start acts o 0).1 = s2

/-! ## Concrete scenarios used in the theorems below -/

/-- Goal `{'backup_available': True}`: no catalog action ever sets
`backup_available` back to `True`, so from a state where it is `False` this
goal is unreachable. -/
def backupGoal : List (String × Cond) :=
  [("backup_available", .lit (.bool true))]

/-- Start state for the witness of plan soundness: out of the safe zone,
nothing else going on. -/
def sRetreatStart : WorldState :=
  ⟨100, 20, 0, "low", false, false, false, true⟩

/-- Goal `{'is_in_safe_zone': True}`. -/
def goalInSafeZone : List (String × Cond) :=
  [("is_in_safe_zone", .lit (.bool true))]

/-- Start state in which only AttackEnemy is applicable (no potions, potion
count maxed, in the safe zone, no backup). -/
def sAttackOnly : WorldState :=
  ⟨100, 5, 3, "low", true, true, false, false⟩

/-- Goal `{'enemy_nearby': False, 'health': lambda h: h >= 100}`: reachable
from `sAttackOnly` exactly when the attack's damage draw is 0. -/
def goalUnscathed : List (String × Cond) :=
  [("enemy_nearby", .lit (.bool false)),
   ("health", .pred fun v => match v with | .int h => decide (100 ≤ h) | _ => false)]

/-- Start state whose first expansion pushes two entries tied on
`(f, g) = (2, 1)` with different states (HealSelf and SearchForPotion are
both applicable at cost 1 and the goal heuristic cannot tell them apart). -/
def sTieStart : WorldState :=
  ⟨50, 20, 0, "low", false, true, true, false⟩

/-- The states popped at even steps of the infinite HealSelf/SearchForPotion
alternation: holding a potion at the full count of 3.  `chainA 0` is the
start state of the diverging run. -/
def chainA (k : Nat) : WorldState :=
  ⟨100, 20 - (k : Int), 3, "low", false, true, true, false⟩

/-- The states popped at odd steps of the alternation: the potion was just
drunk. -/
def chainB (k : Nat) : WorldState :=
  ⟨100, 20 - (k : Int), 2, "low", false, true, false, false⟩

/-- The goal `backupGoal` is unreachable from `chainA 0`: no replay of any
action list ever satisfies it. -/
def UnreachableBackupGoal : Prop :=
  ∀ acts o idx, goal_satisfied (applyPlan (chainA 0) acts o idx).1 backupGoal = false

/-- A state with high treasure threat and backup available. -/
def sHighThreat : WorldState :=
  ⟨100, 20, 0, "high", true, true, false, true⟩

/-- A state with low treasure threat and nothing going on. -/
def sCalm : WorldState :=
  ⟨100, 20, 0, "low", false, true, false, true⟩

/-- A state at zero stamina outside the safe zone. -/
def sTired : WorldState :=
  ⟨50, 0, 0, "low", false, false, false, false⟩

/-- A state at 90 health holding a potion. -/
def sAlmostFull : WorldState :=
  ⟨90, 20, 1, "low", false, true, true, true⟩

/-- A severely wounded state. -/
def sWounded : WorldState :=
  ⟨20, 20, 0, "low", false, true, false, true⟩

/-- A state in which no catalog action is applicable: no potion to drink,
potion count maxed, no enemy, in the safe zone, backup gone. -/
def sStuck : WorldState :=
  ⟨100, 20, 3, "low", false, true, false, false⟩

/-! ## Characterisations of the six catalog actions -/

theorem can_execute_heal (s : WorldState) :
    can_execute_action s heal_self_action = s.has_potion := by
  cases h : s.has_potion <;> simp [can_execute_action, heal_self_action, stateGet, h]

theorem can_execute_attack (s : WorldState) :
    can_execute_action s attack_enemy_action
      = (s.enemy_nearby && decide (5 ≤ s.stamina)) := by
  cases h : s.enemy_nearby <;>
    simp [can_execute_action, attack_enemy_action, stateGet, h]

theorem can_execute_retreat (s : WorldState) :
    can_execute_action s retreat_action = !s.is_in_safe_zone := by
  cases h : s.is_in_safe_zone <;>
    simp [can_execute_action, retreat_action, stateGet, h]

theorem can_execute_defend (s : WorldState) :
    can_execute_action s defend_treasure_action = false := rfl

theorem can_execute_backup (s : WorldState) :
    can_execute_action s call_backup_action = s.backup_available := by
  cases h : s.backup_available <;>
    simp [can_execute_action, call_backup_action, stateGet, h]

theorem can_execute_search (s : WorldState) :
    can_execute_action s search_for_potion_action = decide (s.potion_count < 3) := by
  simp [can_execute_action, search_for_potion_action, stateGet]

theorem apply_heal (s : WorldState) (o : Nat → Nat) (idx : Nat) :
    apply_action s heal_self_action o idx
      = ({ s with health := min 100 (s.health + 40), has_potion := false,
                  potion_count := max 0 (s.potion_count - 1) }, idx) := rfl

theorem apply_attack (s : WorldState) (o : Nat → Nat) (idx : Nat) :
    apply_action s attack_enemy_action o idx
      = ({ s with enemy_nearby := false, stamina := s.stamina - 5,
                  health := s.health - draw o idx }, idx + 1) := rfl

theorem apply_retreat (s : WorldState) (o : Nat → Nat) (idx : Nat) :
    apply_action s retreat_action o idx
      = ({ s with is_in_safe_zone := true, enemy_nearby := false,
                  stamina := s.stamina - 2 }, idx) := rfl

theorem apply_defend (s : WorldState) (o : Nat → Nat) (idx : Nat) :
    apply_action s defend_treasure_action o idx
      = ({ s with stamina := s.stamina - 3 }, idx) := rfl

theorem apply_backup (s : WorldState) (o : Nat → Nat) (idx : Nat) :
    apply_action s call_backup_action o idx
      = ({ s with enemy_nearby := false, backup_available := false }, idx) := rfl

theorem apply_search (s : WorldState) (o : Nat → Nat) (idx : Nat) :
    apply_action s search_for_potion_action o idx
      = ({ s with has_potion := true, potion_count := s.potion_count + 1,
                  stamina := s.stamina - 1 }, idx) := rfl

/-! ## C3, C5, C6, C7 (counterexample part), C8: direct evaluations -/

/-- C3: the claim says search never raises, in particular when two frontier
entries tie on both f-score and g-score.  At `sTieStart` with goal
`backupGoal`, the first expansion pushes the HealSelf and SearchForPotion
successors, both with `(f, g) = (2, 1)`; ordering them compares the two
`WorldState` values and raises `TypeError`, which `plan` propagates. -/
theorem plan_tie_typeError :
    plan 5 sTieStart backupGoal (fun _ => 0) = .typeError := by decide

/-- C5: CallBackup's preconditions hold at `sHighThreat`, its effect table
targets `treasure_threat_level` with the literal `'low'`, yet the applied
state still carries threat level `"high"`: the effect key names no
`WorldState` field (the field is misspelled `trease_threat_level`), so
`_apply_action` silently skips it instead of writing it. -/
theorem call_backup_skips_treasure_effect :
    can_execute_action sHighThreat call_backup_action = true
    ∧ call_backup_action.effects.map Prod.fst
        = ["enemy_nearby", "backup_available", "treasure_threat_level"]
    ∧ ((apply_action sHighThreat call_backup_action (fun _ => 0) 0).1).trease_threat_level
        = "high" :=
  ⟨rfl, rfl, rfl⟩

/-- C6: DefendTreasure is applicable in no state whatsoever (its
precondition key `"treasure_threat_level"` is absent from `asdict`), and the
ProtectTreasure goal condition is satisfied by no state either — both
contrary to the claim that applicability tracks the table's threat-level
test and that the goal condition is checkable against every state. -/
theorem defend_treasure_never_applicable :
    (∀ s : WorldState, can_execute_action s defend_treasure_action = false)
    ∧ (∀ s : WorldState,
        goal_satisfied s (goal_to_conditions .protectTreasure) = false) :=
  ⟨fun _ => rfl, fun _ => rfl⟩

/-- C7 counterexample: Retreat is applicable at `sTired` (health 50,
stamina 0), and the planner's effect application leaves stamina at `-2`: the
planner-side effects are not clamped. -/
theorem retreat_breaks_stamina_clamp :
    can_execute_action sTired retreat_action = true
    ∧ ((apply_action sTired retreat_action (fun _ => 0) 0).1).stamina = -2 :=
  ⟨rfl, rfl⟩

/-- The goal selector's priority chain is broken past its first rung: for
every state with health above 30 it reads the attribute
`world_state.treasure_threat_level`, which the dataclass does not define
(the field is misspelled `trease_threat_level`), and raises
`AttributeError`; only the health ≤ 30 branch returns a goal. -/
theorem generate_goal_chain_broken :
    (∀ s : WorldState, 30 < s.health → generate_goal s = .error .attributeError)
    ∧ (∀ s : WorldState, s.health ≤ 30 → generate_goal s = .ok .survive) := by
  constructor
  · intro s hs
    have h30 : ¬s.health ≤ 30 := by omega
    unfold generate_goal
    rw [if_neg h30]
    rfl
  · intro s hs
    simp [generate_goal, hs]

/-- C8: `generate_goal` is not the claimed total priority chain.  At the
healthy state `sCalm` (health 100, low threat) it raises `AttributeError`
instead of returning PrepareForBattle; the health ≤ 30 rung still returns
Survive, as at `sWounded`. -/
theorem generate_goal_attribute_error :
    generate_goal sCalm = .error .attributeError
    ∧ generate_goal sWounded = .ok .survive :=
  ⟨rfl, rfl⟩

/-! ## C9: execution-failure atomicity -/

/-- C9: whenever `SimulationEngine.execute_action` reports `success=False`
— from the failure roll or from an unmet precondition branch — the state it
returns is exactly the input state (the orchestrator then leaves its current
state untouched for that step, adopting the result only on success). -/
theorem execute_action_failure_atomic (a : ActionType) (s : WorldState)
    (failRoll : Bool) (dmg : Nat) (s2 : WorldState)
    (h : execute_action a s failRoll dmg = .ok (false, s2)) : s2 = s := by
  by_cases hf : failRoll = true
  · unfold execute_action at h
    rw [if_pos hf] at h
    simp at h
    exact h.symm
  · cases a <;> (unfold execute_action at h; rw [if_neg hf] at h; dsimp only at h)
    all_goals first
      | (simp [treasure_threat_level_attr] at h; done)
      | (split at h <;> simp_all)

/-- Witness for `execute_action_failure_atomic`: a failure roll on HealSelf
returns `success=False` with the input state. -/
theorem execute_action_failure_atomic_witness :
    execute_action .healSelf sCalm true 0 = .ok (false, sCalm)
    ∧ sCalm = sCalm :=
  ⟨rfl, execute_action_failure_atomic .healSelf sCalm true 0 sCalm rfl⟩

/-! ## C10: a start state already satisfying the goal yields the empty plan -/

/-- Popping a singleton heap compares nothing. -/
theorem heappop_singleton (e : Entry) : heappop [e] = .ok (e, []) := rfl

/-- C10: when the start state already satisfies the goal conditions, the
first popped node passes the goal check and `plan` returns the empty action
list — the same value that signals "no plan found", which the orchestrator
treats as the end of the run in both cases. -/
theorem plan_empty_when_goal_already_satisfied (fuel : Nat) (s : WorldState)
    (goal : List (String × Cond)) (o : Nat → Nat) (hf : 0 < fuel)
    (hg : goal_satisfied s goal = true) : plan fuel s goal o = .ok [] := by
  obtain ⟨n, rfl⟩ : ∃ n, fuel = n + 1 := ⟨fuel - 1, by omega⟩
  unfold plan planLoop
  rw [heappop_singleton]
  simp [hg]

/-- Witness for `plan_empty_when_goal_already_satisfied`: `sCalm` already
has no enemy nearby. -/
theorem plan_empty_when_goal_already_satisfied_witness :
    plan 1 sCalm [("enemy_nearby", .lit (.bool false))] (fun _ => 0) = .ok [] :=
  plan_empty_when_goal_already_satisfied 1 sCalm
    [("enemy_nearby", .lit (.bool false))] (fun _ => 0) (by decide) (by decide)

/-! ## C7: clamping -/

/-- C7 amended, engine side: every successful, non-raising
`execute_action` application from a state with health in [0,100] and
nonnegative stamina yields health in [0,100] and nonnegative stamina (the
engine clamps with `min`/`max`; the AttackEnemy stamina decrement is guarded
by its `stamina >= 5` branch condition). -/
theorem execute_action_clamps (a : ActionType) (s : WorldState)
    (failRoll : Bool) (dmg : Nat) (suc : Bool) (s2 : WorldState)
    (h0 : 0 ≤ s.health) (h1 : s.health ≤ 100) (h2 : 0 ≤ s.stamina)
    (h : execute_action a s failRoll dmg = .ok (suc, s2)) :
    0 ≤ s2.health ∧ s2.health ≤ 100 ∧ 0 ≤ s2.stamina := by
  by_cases hf : failRoll = true
  · unfold execute_action at h
    rw [if_pos hf] at h
    simp at h
    obtain ⟨-, rfl⟩ := h
    exact ⟨h0, h1, h2⟩
  · cases a <;> (unfold execute_action at h; rw [if_neg hf] at h; dsimp only at h)
    all_goals first
      | (simp [treasure_threat_level_attr] at h; done)
      | (split at h <;>
          (injection h with h5
           injection h5 with h6 h7
           subst h7
           refine ⟨?_, ?_, ?_⟩ <;>
             ((try dsimp only)
              (try simp only [sup_eq_max, inf_eq_min, max_def, min_def])
              (try split) <;> omega)))

/-- Witness for `execute_action_clamps`: HealSelf from health 90 clamps to
exactly 100. -/
theorem execute_action_clamps_witness :
    (0 ≤ sAlmostFull.health ∧ sAlmostFull.health ≤ 100 ∧ 0 ≤ sAlmostFull.stamina)
    ∧ execute_action .healSelf sAlmostFull false 0
        = .ok (true, ⟨100, 20, 0, "low", false, true, false, true⟩)
    ∧ (0 ≤ (⟨100, 20, 0, "low", false, true, false, true⟩ : WorldState).health
        ∧ (⟨100, 20, 0, "low", false, true, false, true⟩ : WorldState).health ≤ 100
        ∧ 0 ≤ (⟨100, 20, 0, "low", false, true, false, true⟩ : WorldState).stamina) :=
  ⟨by decide, rfl,
   execute_action_clamps .healSelf sAlmostFull false 0 true
     ⟨100, 20, 0, "low", false, true, false, true⟩
     (by decide) (by decide) (by decide) rfl⟩

/-! ## C2: the search makes fresh damage draws -/

/-- C2 counterexample: from `sAttackOnly` toward `goalUnscathed`, the plan
returned depends on the combat-damage draw made during search: with draw 0
the attack leaves health at 100 and `[AttackEnemy]` is returned, with draw 5
the goal is unreachable and the empty sequence is returned.  The planner
therefore uses a fresh `random.randint(0, 15)` draw during search, not a
deterministic placeholder. -/
theorem plan_depends_on_search_draws :
    plan 10 sAttackOnly goalUnscathed (fun _ => 0) = .ok [.attackEnemy]
    ∧ plan 10 sAttackOnly goalUnscathed (fun _ => 5) = .ok [] :=
  ⟨by decide, by decide⟩

/-! ## Replay lemmas -/

theorem catalogAction_mem (a : Action) (ha : a ∈ planner_actions) :
    catalogAction a.action_type = a := by
  simp [planner_actions] at ha
  rcases ha with rfl | rfl | rfl | rfl | rfl | rfl <;> rfl

theorem apply_action_idx (t : ActionType) (s : WorldState) (o : Nat → Nat)
    (idx : Nat) :
    (apply_action s (catalogAction t) o idx).2 = idx + actionDraws t := by
  cases t <;>
    simp [catalogAction, actionDraws, apply_heal, apply_attack, apply_retreat,
          apply_defend, apply_backup, apply_search]

theorem apply_action_congr (t : ActionType) (s : WorldState) (o o2 : Nat → Nat)
    (idx idx2 : Nat)
    (hd : ∀ k, k < actionDraws t → o (idx + k) % 16 = o2 (idx2 + k) % 16) :
    (apply_action s (catalogAction t) o idx).1
      = (apply_action s (catalogAction t) o2 idx2).1 := by
  cases t
  case attackEnemy =>
    have h0 := hd 0 (by simp [actionDraws])
    simp only [Nat.add_zero] at h0
    simp [catalogAction, apply_attack, draw, h0]
  all_goals rfl

theorem planDraws_cons (t : ActionType) (acts : List ActionType) :
    planDraws (t :: acts) = actionDraws t + planDraws acts := by
  simp [planDraws]

theorem applyPlan_cons (t : ActionType) (acts : List ActionType)
    (s : WorldState) (o : Nat → Nat) (idx : Nat) :
    applyPlan s (t :: acts) o idx
      = applyPlan (apply_action s (catalogAction t) o idx).1 acts o
          (apply_action s (catalogAction t) o idx).2 := rfl

theorem applyPlan_append_single (acts : List ActionType) (t : ActionType)
    (s : WorldState) (o : Nat → Nat) (idx : Nat) :
    applyPlan s (acts ++ [t]) o idx
      = apply_action (applyPlan s acts o idx).1 (catalogAction t) o
          (applyPlan s acts o idx).2 := by
  unfold applyPlan
  rw [List.foldl_append]
  rfl

theorem applyPlan_idx (acts : List ActionType) :
    ∀ (s : WorldState) (o : Nat → Nat) (idx : Nat),
      (applyPlan s acts o idx).2 = idx + planDraws acts := by
  induction acts with
  | nil => intro s o idx; simp [applyPlan, planDraws]
  | cons t acts ih =>
    intro s o idx
    rw [applyPlan_cons, ih, apply_action_idx, planDraws_cons]
    omega

theorem applyPlan_congr (acts : List ActionType) :
    ∀ (s : WorldState) (o o2 : Nat → Nat) (idx idx2 : Nat),
      (∀ k, k < planDraws acts → o (idx + k) % 16 = o2 (idx2 + k) % 16) →
      (applyPlan s acts o idx).1 = (applyPlan s acts o2 idx2).1 := by
  induction acts with
  | nil => intro s o o2 idx idx2 _; rfl
  | cons t acts ih =>
    intro s o o2 idx idx2 hd
    rw [applyPlan_cons, applyPlan_cons]
    have hstep : (apply_action s (catalogAction t) o idx).1
        = (apply_action s (catalogAction t) o2 idx2).1 :=
      apply_action_congr t s o o2 idx idx2
        (fun k hk => hd k (by rw [planDraws_cons]; omega))
    rw [hstep, apply_action_idx, apply_action_idx]
    exact ih _ o o2 _ _ (fun k hk => by
      have := hd (actionDraws t + k) (by rw [planDraws_cons]; omega)
      simpa [Nat.add_assoc] using this)

theorem reachesVia_nil (s : WorldState) : reachesVia s [] s :=
  ⟨fun _ => 0, rfl⟩

theorem reachesVia_snoc (start st : WorldState) (acts : List ActionType)
    (t : ActionType) (o : Nat → Nat) (idx : Nat)
    (h : reachesVia start acts st) :
    reachesVia start (acts ++ [t]) ((apply_action st (catalogAction t) o idx).1) := by
  obtain ⟨o2, h2⟩ := h
  refine ⟨fun k => if k < planDraws acts then o2 k else o (idx + (k - planDraws acts)), ?_⟩
  rw [applyPlan_append_single]
  have hpre : (applyPlan start acts
      (fun k => if k < planDraws acts then o2 k else o (idx + (k - planDraws acts))) 0).1
      = st := by
    rw [← h2]
    exact applyPlan_congr acts start _ o2 0 0 (fun k hk => by simp [hk])
  have hidx : (applyPlan start acts
      (fun k => if k < planDraws acts then o2 k else o (idx + (k - planDraws acts))) 0).2
      = planDraws acts := by
    rw [applyPlan_idx]
    omega
  rw [hpre, hidx]
  refine apply_action_congr t st _ o (planDraws acts) idx (fun k hk => ?_)
  have hk0 : k = 0 := by cases t <;> simp [actionDraws] at hk <;> omega
  subst hk0
  simp

/-! ## Heap membership lemmas

The sift procedures only move entries already in the heap and place the new
item; membership-level closure is all the search invariant needs. -/

theorem hget_mem (heap : List Entry) (i : Nat) (hi : i < heap.length) :
    hget heap i ∈ heap := by
  unfold hget
  rw [List.getD_eq_getElem _ _ hi]
  exact List.getElem_mem hi

theorem siftdownLoop_mem (startpos : Nat) :
    ∀ (fuel : Nat) (heap : List Entry) (pos : Nat) (newitem : Entry)
      (out : List Entry), pos < heap.length →
      siftdownLoop startpos fuel heap pos newitem = .ok out →
      ∀ x ∈ out, x = newitem ∨ x ∈ heap := by
  intro fuel
  induction fuel with
  | zero =>
    intro heap pos newitem out hp hout x hx
    simp only [siftdownLoop, Except.ok.injEq] at hout
    subst hout
    rcases List.mem_or_eq_of_mem_set hx with h | h
    · exact Or.inr h
    · exact Or.inl h
  | succ fuel ih =>
    intro heap pos newitem out hp hout x hx
    rw [siftdownLoop] at hout
    split at hout
    · split at hout
      · cases hout
      · rename_i hcmp
        have hpar : (pos - 1) / 2 < (heap.set pos (hget heap ((pos - 1) / 2))).length := by
          simp only [List.length_set]
          have : (pos - 1) / 2 ≤ pos - 1 := Nat.div_le_self _ _
          omega
        rcases ih _ _ _ _ hpar hout x hx with rfl | hmem
        · exact Or.inl rfl
        · rcases List.mem_or_eq_of_mem_set hmem with h | h
          · exact Or.inr h
          · subst h
            refine Or.inr (hget_mem heap _ ?_)
            have : (pos - 1) / 2 ≤ pos - 1 := Nat.div_le_self _ _
            omega
      · rename_i hcmp
        simp only [Except.ok.injEq] at hout
        subst hout
        rcases List.mem_or_eq_of_mem_set hx with h | h
        · exact Or.inr h
        · exact Or.inl h
    · simp only [Except.ok.injEq] at hout
      subst hout
      rcases List.mem_or_eq_of_mem_set hx with h | h
      · exact Or.inr h
      · exact Or.inl h

theorem heappush_mem (heap : List Entry) (item : Entry) (out : List Entry)
    (hout : heappush heap item = .ok out) :
    ∀ x ∈ out, x = item ∨ x ∈ heap := by
  intro x hx
  rcases siftdownLoop_mem 0 heap.length (heap ++ [item]) heap.length item out
      (by simp) hout x hx with rfl | h
  · exact Or.inl rfl
  · rcases List.mem_append.1 h with h | h
    · exact Or.inr h
    · simp only [List.mem_singleton] at h
      exact Or.inl h

theorem siftupLoop_mem (endpos : Nat) :
    ∀ (fuel : Nat) (heap : List Entry) (pos : Nat) (out : List Entry)
      (pos2 : Nat), endpos ≤ heap.length → pos < heap.length →
      siftupLoop endpos fuel heap pos = .ok (out, pos2) →
      out.length = heap.length ∧ pos2 < heap.length ∧ ∀ x ∈ out, x ∈ heap := by
  intro fuel
  induction fuel with
  | zero =>
    intro heap pos out pos2 hend hp hout
    simp only [siftupLoop, Except.ok.injEq, Prod.mk.injEq] at hout
    obtain ⟨rfl, rfl⟩ := hout
    exact ⟨rfl, hp, fun x hx => hx⟩
  | succ fuel ih =>
    intro heap pos out pos2 hend hp hout
    rw [siftupLoop] at hout
    split at hout
    · rename_i hchild
      split at hout
      · rename_i hright
        split at hout
        · cases hout
        · obtain ⟨hl, hp2, hmem⟩ := ih _ _ _ _
            (by simpa using hend) (by simp only [List.length_set]; omega) hout
          simp only [List.length_set] at hl hp2
          refine ⟨hl, hp2, fun x hx => ?_⟩
          rcases List.mem_or_eq_of_mem_set (hmem x hx) with h | h
          · exact h
          · subst h
            exact hget_mem heap _ (by omega)
        · obtain ⟨hl, hp2, hmem⟩ := ih _ _ _ _
            (by simpa using hend) (by simp only [List.length_set]; omega) hout
          simp only [List.length_set] at hl hp2
          refine ⟨hl, hp2, fun x hx => ?_⟩
          rcases List.mem_or_eq_of_mem_set (hmem x hx) with h | h
          · exact h
          · subst h
            exact hget_mem heap _ (by omega)
      · obtain ⟨hl, hp2, hmem⟩ := ih _ _ _ _
          (by simpa using hend) (by simp only [List.length_set]; omega) hout
        simp only [List.length_set] at hl hp2
        refine ⟨hl, hp2, fun x hx => ?_⟩
        rcases List.mem_or_eq_of_mem_set (hmem x hx) with h | h
        · exact h
        · subst h
          exact hget_mem heap _ (by omega)
    · simp only [Except.ok.injEq, Prod.mk.injEq] at hout
      obtain ⟨rfl, rfl⟩ := hout
      exact ⟨rfl, hp, fun x hx => hx⟩

theorem siftup_mem (heap : List Entry) (out : List Entry) (hne : 0 < heap.length)
    (hout : siftup heap 0 = .ok out) : ∀ x ∈ out, x ∈ heap := by
  unfold siftup at hout
  cases hsl : siftupLoop heap.length heap.length heap 0 with
  | error e =>
    rw [hsl] at hout
    cases hout
  | ok p =>
    obtain ⟨h1, pos2⟩ := p
    rw [hsl] at hout
    obtain ⟨hl, hp2, hmem⟩ :=
      siftupLoop_mem heap.length heap.length heap 0 h1 pos2 le_rfl hne hsl
    intro x hx
    rcases siftdownLoop_mem 0 h1.length h1 pos2 (hget heap 0) out
        (by rw [hl]; exact hp2) hout x hx with rfl | h
    · exact hget_mem heap 0 hne
    · exact hmem x h

theorem heappop_mem (heap : List Entry) (e : Entry) (rest : List Entry)
    (hout : heappop heap = .ok (e, rest)) :
    e ∈ heap ∧ ∀ x ∈ rest, x ∈ heap := by
  unfold heappop at hout
  cases hlast : heap.getLast? with
  | none =>
    rw [hlast] at hout
    cases hout
  | some lastelt =>
    rw [hlast] at hout
    dsimp only at hout
    have hlmem : lastelt ∈ heap := List.mem_of_mem_getLast? hlast
    by_cases hre : heap.dropLast.isEmpty
    · rw [if_pos hre] at hout
      simp only [Except.ok.injEq, Prod.mk.injEq] at hout
      obtain ⟨rfl, rfl⟩ := hout
      exact ⟨hlmem, by simp⟩
    · rw [if_neg hre] at hout
      have h0len : 0 < heap.dropLast.length := by
        rcases Nat.eq_zero_or_pos heap.dropLast.length with h | h
        · exact absurd (List.isEmpty_iff.2 (List.length_eq_zero.1 h)) hre
        · exact h
      have hd : ∀ x ∈ heap.dropLast, x ∈ heap :=
        fun x hx => List.mem_of_mem_dropLast hx
      cases hs : siftup (heap.dropLast.set 0 lastelt) 0 with
      | error er =>
        rw [hs] at hout
        cases hout
      | ok h2 =>
        rw [hs] at hout
        simp only [Except.ok.injEq, Prod.mk.injEq] at hout
        obtain ⟨rfl, rfl⟩ := hout
        refine ⟨hd _ (hget_mem heap.dropLast 0 h0len), fun x hx => ?_⟩
        have hmem := siftup_mem (heap.dropLast.set 0 lastelt) h2
          (by simp only [List.length_set]; exact h0len) hs x hx
        rcases List.mem_or_eq_of_mem_set hmem with h | h
        · exact hd x h
        · subst h
          exact hlmem

/-! ## C1: plan soundness -/

theorem expandActions_mem :
    ∀ (al : List Action) (s : WorldState) (acts0 : List ActionType) (gs : Int)
      (goal : List (String × Cond)) (o : Nat → Nat) (idx : Nat)
      (heap heap2 : List Entry) (idx2 : Nat),
      expandActions al s acts0 gs goal o idx heap = .ok (heap2, idx2) →
      ∀ x ∈ heap2, x ∈ heap ∨
        ∃ a ∈ al, ∃ j, x.state = (apply_action s a o j).1
          ∧ x.actions = acts0 ++ [a.action_type] := by
  intro al
  induction al with
  | nil =>
    intro s acts0 gs goal o idx heap heap2 idx2 h x hx
    simp only [expandActions, Except.ok.injEq, Prod.mk.injEq] at h
    obtain ⟨rfl, rfl⟩ := h
    exact Or.inl hx
  | cons a rest ih =>
    intro s acts0 gs goal o idx heap heap2 idx2 h x hx
    rw [expandActions] at h
    split at h
    · split at h
      · cases h
      · rename_i heap3 hpush
        rcases ih s acts0 gs goal o _ heap3 heap2 idx2 h x hx
          with hx3 | ⟨a2, ha2, j, hst, hacts⟩
        · rcases heappush_mem heap _ heap3 hpush x hx3 with rfl | hxh
          · exact Or.inr ⟨a, List.mem_cons_self a rest, idx, rfl, rfl⟩
          · exact Or.inl hxh
        · exact Or.inr ⟨a2, List.mem_cons_of_mem a ha2, j, hst, hacts⟩
    · rcases ih s acts0 gs goal o idx heap heap2 idx2 h x hx
        with hx1 | ⟨a2, ha2, j, hst, hacts⟩
      · exact Or.inl hx1
      · exact Or.inr ⟨a2, List.mem_cons_of_mem a ha2, j, hst, hacts⟩

theorem planLoop_sound (start : WorldState) (goal : List (String × Cond))
    (o : Nat → Nat) :
    ∀ (fuel : Nat) (heap : List Entry) (closed : List WorldState) (idx : Nat)
      (acts : List ActionType),
      (∀ e ∈ heap, reachesVia start e.actions e.state) →
      planLoop goal o fuel heap closed idx = .ok acts →
      acts = [] ∨ ∃ s2, reachesVia start acts s2 ∧ goal_satisfied s2 goal = true := by
  intro fuel
  induction fuel with
  | zero =>
    intro heap closed idx acts hinv h
    cases h
  | succ fuel ih =>
    intro heap closed idx acts hinv h
    rw [planLoop] at h
    split at h
    · simp only [PlanOutcome.ok.injEq] at h
      exact Or.inl h.symm
    · split at h
      · cases h
      · rename_i e heap1 hpop
        obtain ⟨hemem, hrest⟩ := heappop_mem heap e heap1 hpop
        split at h
        · exact ih heap1 closed idx acts (fun x hx => hinv x (hrest x hx)) h
        · split at h
          · rename_i hgoal
            simp only [PlanOutcome.ok.injEq] at h
            subst h
            exact Or.inr ⟨e.state, hinv e hemem, hgoal⟩
          · split at h
            · cases h
            · rename_i heap2 idx2 hexp
              refine ih heap2 _ idx2 acts (fun x hx => ?_) h
              rcases expandActions_mem planner_actions e.state e.actions e.g
                  goal o idx heap1 heap2 idx2 hexp x hx
                with hx1 | ⟨a, ha, j, hst, hacts⟩
              · exact hinv x (hrest x hx1)
              · rw [hacts, hst]
                have h2 := reachesVia_snoc start e.state e.actions a.action_type
                  o j (hinv e hemem)
                rwa [catalogAction_mem a ha] at h2

/-- C1: plan soundness — whenever `plan(start, goal)` returns a non-empty
action sequence, replaying those actions' catalog effects via
`_apply_action` from `start` (with the damage draws the search itself made)
yields a final state satisfying the goal conditions per `_goal_satisfied`. -/
theorem plan_sound (fuel : Nat) (start : WorldState)
    (goal : List (String × Cond)) (o : Nat → Nat) (acts : List ActionType)
    (h : plan fuel start goal o = .ok acts) (hne : acts ≠ []) :
    ∃ o2, goal_satisfied (applyPlan start acts o2 0).1 goal = true := by
  have hinv : ∀ e ∈ [(⟨0, 0, start, []⟩ : Entry)], reachesVia start e.actions e.state := by
    intro e he
    simp only [List.mem_singleton] at he
    subst he
    exact reachesVia_nil start
  rcases planLoop_sound start goal o fuel _ [] 0 acts hinv h with rfl | ⟨s2, ⟨o2, hre⟩, hgoal⟩
  · exact absurd rfl hne
  · exact ⟨o2, by rw [hre]; exact hgoal⟩

/-- Witness for `plan_sound`: from `sRetreatStart` with goal
`goalInSafeZone`, the planner returns `[Retreat]`, and replaying it reaches
the goal. -/
theorem plan_sound_witness :
    plan 5 sRetreatStart goalInSafeZone (fun _ => 0) = .ok [.retreat]
    ∧ ([ActionType.retreat] ≠ ([] : List ActionType))
    ∧ ∃ o2, goal_satisfied
        (applyPlan sRetreatStart [.retreat] o2 0).1 goalInSafeZone = true :=
  ⟨by decide, by decide,
   plan_sound 5 sRetreatStart goalInSafeZone (fun _ => 0) [.retreat]
     (by decide) (by decide)⟩

/-! ## C2 (amended): `plan` is a function of the inputs and the draws -/

theorem applyEffectStep_oracle_congr (s : WorldState) (o o2 : Nat → Nat)
    (hd : ∀ k, o k % 16 = o2 k % 16) (acc : WorldState × Nat)
    (ke : String × Eff) :
    applyEffectStep s o acc ke = applyEffectStep s o2 acc ke := by
  unfold applyEffectStep
  cases stateGet s ke.1 with
  | none => rfl
  | some v =>
    cases ke.2 with
    | lit w => rfl
    | func f => rfl
    | randFunc f =>
      have : draw o acc.2 = draw o2 acc.2 := by
        unfold draw
        rw [hd acc.2]
      rw [this]

theorem foldl_fun_congr {α β : Type} (f g : α → β → α)
    (h : ∀ a b, f a b = g a b) :
    ∀ (l : List β) (i : α), l.foldl f i = l.foldl g i := by
  intro l
  induction l with
  | nil => intro i; rfl
  | cons b l ih =>
    intro i
    rw [List.foldl_cons, List.foldl_cons, h, ih]

theorem apply_action_oracle_congr (a : Action) (s : WorldState)
    (o o2 : Nat → Nat) (idx : Nat) (hd : ∀ k, o k % 16 = o2 k % 16) :
    apply_action s a o idx = apply_action s a o2 idx := by
  unfold apply_action
  exact foldl_fun_congr _ _ (applyEffectStep_oracle_congr s o o2 hd) a.effects (s, idx)

theorem expandActions_oracle_congr (o o2 : Nat → Nat)
    (hd : ∀ k, o k % 16 = o2 k % 16) :
    ∀ (al : List Action) (s : WorldState) (acts : List ActionType) (gs : Int)
      (goal : List (String × Cond)) (idx : Nat) (heap : List Entry),
      expandActions al s acts gs goal o idx heap
        = expandActions al s acts gs goal o2 idx heap := by
  intro al
  induction al with
  | nil => intro s acts gs goal idx heap; rfl
  | cons a rest ih =>
    intro s acts gs goal idx heap
    rw [expandActions, expandActions]
    split
    · rw [apply_action_oracle_congr a s o o2 idx hd]
      cases heappush heap ⟨gs + a.cost + heuristic (apply_action s a o2 idx).1 goal,
          gs + a.cost, (apply_action s a o2 idx).1, acts ++ [a.action_type]⟩ with
      | error e => rfl
      | ok heap2 => exact ih s acts gs goal _ heap2
    · exact ih s acts gs goal idx heap

theorem planLoop_oracle_congr (goal : List (String × Cond)) (o o2 : Nat → Nat)
    (hd : ∀ k, o k % 16 = o2 k % 16) :
    ∀ (fuel : Nat) (heap : List Entry) (closed : List WorldState) (idx : Nat),
      planLoop goal o fuel heap closed idx = planLoop goal o2 fuel heap closed idx := by
  intro fuel
  induction fuel with
  | zero => intro heap closed idx; rfl
  | succ fuel ih =>
    intro heap closed idx
    rw [planLoop, planLoop]
    split
    · rfl
    · generalize heappop heap = r
      cases r with
      | error e => rfl
      | ok p =>
        obtain ⟨e, heap1⟩ := p
        dsimp only
        split
        · exact ih heap1 closed idx
        · split
          · rfl
          · rw [expandActions_oracle_congr o o2 hd planner_actions e.state
                e.actions e.g goal idx heap1]
            generalize expandActions planner_actions e.state e.actions e.g goal
                o2 idx heap1 = r2
            cases r2 with
            | error er => rfl
            | ok p2 => exact ih p2.1 (e.state :: closed) p2.2

/-- C2 amended: `plan` is a deterministic function of the start state, goal
conditions and the sequence of combat-damage draws — two runs whose oracles
agree on every draw value return identical results (search order and
tie-breaks are fixed).  Variation between runs comes only from fresh
`random.randint(0, 15)` draws during search. -/
theorem plan_deterministic_given_draws (fuel : Nat) (s : WorldState)
    (goal : List (String × Cond)) (o o2 : Nat → Nat)
    (hd : ∀ k, o k % 16 = o2 k % 16) :
    plan fuel s goal o = plan fuel s goal o2 :=
  planLoop_oracle_congr goal o o2 hd fuel [⟨0, 0, s, []⟩] [] 0

/-- Witness for `plan_deterministic_given_draws`: the all-0 and all-16
oracles make the same draws, hence the same plan. -/
theorem plan_deterministic_given_draws_witness :
    plan 3 sAttackOnly goalUnscathed (fun _ => 0)
      = plan 3 sAttackOnly goalUnscathed (fun _ => 16) :=
  plan_deterministic_given_draws 3 sAttackOnly goalUnscathed
    (fun _ => 0) (fun _ => 16) (fun _ => by simp)

/-! ## C4: unreachable goals need not terminate

From `chainA 0` (holding a potion at the full count of 3) toward
`backupGoal`, the search alternates HealSelf and SearchForPotion forever:
each visited state is fresh (stamina strictly decreases every two steps), the
frontier always holds exactly one entry (so no tied comparison ever occurs),
and the goal is never satisfied. -/

theorem expandActions_chainA (k : Nat) (acts : List ActionType) (g : Int)
    (o : Nat → Nat) (idx : Nat) :
    expandActions planner_actions (chainA k) acts g backupGoal o idx []
      = .ok ([⟨g + 1 + 1, g + 1, chainB k, acts ++ [.healSelf]⟩], idx) := rfl

theorem expandActions_chainB (k : Nat) (acts : List ActionType) (g : Int)
    (o : Nat → Nat) (idx : Nat) :
    expandActions planner_actions (chainB k) acts g backupGoal o idx []
      = .ok ([⟨g + 1 + 1, g + 1,
              ⟨100, 20 - (k : Int) - 1, 3, "low", false, true, true, false⟩,
              acts ++ [.searchForPotion]⟩], idx) := rfl

theorem chainB_step_state (k : Nat) :
    (⟨100, 20 - (k : Int) - 1, 3, "low", false, true, true, false⟩ : WorldState)
      = chainA (k + 1) := by
  simp only [chainA, WorldState.mk.injEq, and_true, true_and]
  push_cast
  ring

theorem chainA_inj (i k : Nat) (h : i ≠ k) : chainA i ≠ chainA k := by
  simp only [chainA, ne_eq, WorldState.mk.injEq, true_and, and_true]
  omega

theorem chainB_inj (i k : Nat) (h : i ≠ k) : chainB i ≠ chainB k := by
  simp only [chainB, ne_eq, WorldState.mk.injEq, true_and, and_true]
  omega

theorem chainA_ne_chainB (i k : Nat) : chainA i ≠ chainB k := by
  simp [chainA, chainB]

theorem chainB_ne_chainA (i k : Nat) : chainB i ≠ chainA k := by
  simp [chainA, chainB]

theorem planLoop_chain_diverges (o : Nat → Nat) :
    ∀ fuel : Nat,
      (∀ (k : Nat) (closed : List WorldState) (f g : Int)
          (acts : List ActionType) (idx : Nat),
        (∀ i, k ≤ i → chainA i ∉ closed) →
        (∀ i, k ≤ i → chainB i ∉ closed) →
        planLoop backupGoal o fuel [⟨f, g, chainA k, acts⟩] closed idx
          = .outOfFuel)
      ∧ (∀ (k : Nat) (closed : List WorldState) (f g : Int)
          (acts : List ActionType) (idx : Nat),
        (∀ i, k + 1 ≤ i → chainA i ∉ closed) →
        (∀ i, k ≤ i → chainB i ∉ closed) →
        planLoop backupGoal o fuel [⟨f, g, chainB k, acts⟩] closed idx
          = .outOfFuel) := by
  intro fuel
  induction fuel with
  | zero => exact ⟨fun _ _ _ _ _ _ _ _ => rfl, fun _ _ _ _ _ _ _ _ => rfl⟩
  | succ fuel ih =>
    constructor
    · intro k closed f g acts idx hA hB
      rw [planLoop, heappop_singleton]
      dsimp only
      rw [if_neg (hA k le_rfl)]
      rw [show goal_satisfied (chainA k) backupGoal = false from rfl]
      rw [if_neg Bool.false_ne_true]
      rw [expandActions_chainA k acts g o idx]
      dsimp only
      exact ih.2 k (chainA k :: closed) _ _ _ idx
        (fun i hi => by
          simp only [List.mem_cons, not_or]
          exact ⟨chainA_inj i k (by omega), hA i (by omega)⟩)
        (fun i hi => by
          simp only [List.mem_cons, not_or]
          exact ⟨chainB_ne_chainA i k, hB i hi⟩)
    · intro k closed f g acts idx hA hB
      rw [planLoop, heappop_singleton]
      dsimp only
      rw [if_neg (hB k le_rfl)]
      rw [show goal_satisfied (chainB k) backupGoal = false from rfl]
      rw [if_neg Bool.false_ne_true]
      rw [expandActions_chainB k acts g o idx]
      rw [chainB_step_state k]
      dsimp only
      exact ih.1 (k + 1) (chainB k :: closed) _ _ _ idx
        (fun i hi => by
          simp only [List.mem_cons, not_or]
          exact ⟨chainA_ne_chainB i k, hA i (by omega)⟩)
        (fun i hi => by
          simp only [List.mem_cons, not_or]
          exact ⟨chainB_inj i k (by omega), hB i (by omega)⟩)

theorem apply_keeps_backup_false (t : ActionType) (s : WorldState)
    (o : Nat → Nat) (idx : Nat) (h : s.backup_available = false) :
    ((apply_action s (catalogAction t) o idx).1).backup_available = false := by
  cases t <;>
    simp [catalogAction, apply_heal, apply_attack, apply_retreat, apply_defend,
          apply_backup, apply_search, h]

theorem applyPlan_keeps_backup_false (acts : List ActionType) :
    ∀ (s : WorldState) (o : Nat → Nat) (idx : Nat),
      s.backup_available = false →
      ((applyPlan s acts o idx).1).backup_available = false := by
  induction acts with
  | nil => intro s o idx h; exact h
  | cons t acts ih =>
    intro s o idx h
    rw [applyPlan_cons]
    exact ih _ o _ (apply_keeps_backup_false t s o idx h)

theorem backup_goal_unsat (s : WorldState) (h : s.backup_available = false) :
    goal_satisfied s backupGoal = false := by
  have hdef : goal_satisfied s backupGoal
      = ((PyVal.bool s.backup_available == PyVal.bool true)
          && List.all [] (fun kc : String × Cond =>
            match stateGet s kc.1 with
            | none => false
            | some v =>
              match kc.2 with
              | .lit w => v == w
              | .pred p => p v)) := rfl
  rw [hdef, h]
  rfl

/-- C4 counterexample: `backupGoal` is unreachable from `chainA 0` — no
replay of any action sequence ever satisfies it — yet `plan` does not
terminate with the empty sequence: the search loop runs forever (it is still
running after any number of iterations), because the reachable state space
is unbounded and the source has no expansion cap. -/
theorem plan_diverges_on_unreachable_backup_goal :
    UnreachableBackupGoal ∧ planDiverges (chainA 0) backupGoal (fun _ => 0) := by
  constructor
  · intro acts o idx
    exact backup_goal_unsat _ (applyPlan_keeps_backup_false acts (chainA 0) o idx rfl)
  · intro fuel
    exact (planLoop_chain_diverges (fun _ => 0) fuel).1 0 [] 0 0 [] 0
      (fun i _ => List.not_mem_nil _) (fun i _ => List.not_mem_nil _)

theorem expandActions_none :
    ∀ (al : List Action) (s : WorldState),
      (∀ a ∈ al, can_execute_action s a = false) →
      ∀ (acts : List ActionType) (gs : Int) (goal : List (String × Cond))
        (o : Nat → Nat) (idx : Nat) (heap : List Entry),
        expandActions al s acts gs goal o idx heap = .ok (heap, idx) := by
  intro al
  induction al with
  | nil => intro s _ acts gs goal o idx heap; rfl
  | cons a rest ih =>
    intro s hnone acts gs goal o idx heap
    rw [expandActions]
    rw [if_neg (by simp [hnone a (List.mem_cons_self a rest)])]
    exact ih s (fun a2 ha2 => hnone a2 (List.mem_cons_of_mem a ha2)) acts gs goal o idx heap

/-- C4 amended: when the start state does not satisfy the goal and no
catalog action is applicable in it, the first iteration exhausts the
frontier and `plan` returns the empty sequence (two loop iterations: one
expansion, one empty-frontier check).  For unreachable goals in general this
fails: see the divergence counterexample. -/
theorem plan_no_plan_when_start_stuck (fuel : Nat) (s : WorldState)
    (goal : List (String × Cond)) (o : Nat → Nat) (hf : 2 ≤ fuel)
    (hnone : ∀ a ∈ planner_actions, can_execute_action s a = false)
    (hgoal : goal_satisfied s goal = false) :
    plan fuel s goal o = .ok [] := by
  obtain ⟨n, rfl⟩ : ∃ n, fuel = n + 2 := ⟨fuel - 2, by omega⟩
  unfold plan
  rw [planLoop, heappop_singleton]
  dsimp only
  rw [if_neg (List.not_mem_nil _)]
  rw [hgoal]
  rw [if_neg Bool.false_ne_true]
  rw [expandActions_none planner_actions s hnone [] 0 goal o 0 []]
  dsimp only
  rw [planLoop]
  rfl

/-- Witness for `plan_no_plan_when_start_stuck`: at `sStuck` with the
unreachable `backupGoal`, the planner returns the empty sequence. -/
theorem plan_no_plan_when_start_stuck_witness :
    plan 2 sStuck backupGoal (fun _ => 0) = .ok [] :=
  plan_no_plan_when_start_stuck 2 sStuck backupGoal (fun _ => 0)
    (by omega) (by decide) (by decide)

end DungeonGuardian
